import Mathlib

/-!
Shallow embedding of the IoT-Based-Traffic-Monitoring-System dashboard:
the assistant panel's analysis pipeline (`analyzeStationsWithAI` and the
grouping render in `AiAssistantChat`, src/unnamed/part_000) and the station
map (`Map`, src/components/Map.tsx).  Numbers are modelled as rationals;
JavaScript runtime values crossing the untyped boundary (the fetched
payload) are modelled by an explicit `Json` type with JS member-access and
truthiness semantics.
-/

namespace IoTDash

/-- Sensor reading record.  The `SensorReading` type itself is imported from
`../types` (not in the repository snapshot), but its field set is fixed by the
fields the repository accesses: `temperature`, `emissions`, `noise` in
`AiAssistantChat`, plus `datetime` in `Map.tsx`'s inline reading type
`{ datetime; temperature; emissions; noise }`. -/
structure SensorReading where
  datetime : String
  temperature : ℚ
  emissions : ℚ
  noise : ℚ
  deriving DecidableEq, Repr

/-- `Station.info` as declared in part_000 lines 15-20. -/
structure StationInfo where
  name : String
  latitude : ℚ
  longitude : ℚ
  area : String
  deriving DecidableEq, Repr

/-- `Station` as declared in part_000 lines 13-22 (`id : string | number`
modelled as a string; no claim depends on the id). -/
structure Station where
  id : String
  info : StationInfo
  latestReading : Option SensorReading
  deriving DecidableEq, Repr

/-- `Suggestion` record, part_000 lines 24-31.  `parameter` is one of
"Temperature", "PM 2.5 Emissions", "Noise"; kept as a string as in the source. -/
structure Suggestion where
  stationName : String
  area : String
  parameter : String
  value : ℚ
  threshold : ℚ
  suggestion : String
  deriving DecidableEq, Repr

/-- One station's local fallback evaluation, part_000 lines 78-109.
Each JS guard is `s.latestReading?.x! > t`: when `latestReading` is null the
optional chain yields `undefined` and `undefined > t` is `false`, so a null
reading falls through all three guards and returns `null`; hence the match on
`latestReading` first.  When a guard fires, `value` is the same optional-chain
read, i.e. the reading's field. -/
def localFallbackOne (s : Station) : Option Suggestion :=
  match s.latestReading with
  | none => none
  | some r =>
    if r.temperature > 30 then
      some { stationName := s.info.name, area := s.info.area,
             parameter := "Temperature", value := r.temperature, threshold := 30,
             suggestion := "Deploy cooling systems or improve ventilation." }
    else if r.emissions > 150 then
      some { stationName := s.info.name, area := s.info.area,
             parameter := "PM 2.5 Emissions", value := r.emissions, threshold := 150,
             suggestion := "Implement carbon capture technologies or reduce operational hours." }
    else if r.noise > 85 then
      some { stationName := s.info.name, area := s.info.area,
             parameter := "Noise", value := r.noise, threshold := 85,
             suggestion := "Install noise barriers or schedule loud activities during off-peak hours." }
    else none

/-- The local fallback over the station list, part_000 lines 77-110:
`stations.map(...)` producing `Suggestion | null` followed by
`.filter(Boolean)`, i.e. a `filterMap`. -/
def localFallback (stations : List Station) : List Suggestion :=
  stations.filterMap localFallbackOne

/-! ### JavaScript value model

The fetched payload (`await response.json()`) is untyped at runtime.  `Json`
models the values `JSON.parse` can produce; `Option Json` models a possibly
`undefined` value (`none` = `undefined`). -/

/-- A JavaScript value produced by `JSON.parse` / `response.json()`. -/
inductive Json where
  | null : Json
  | bool : Bool → Json
  | num : ℚ → Json
  | str : String → Json
  | arr : List Json → Json
  | obj : List (String × Json) → Json
  deriving Repr

/-- First-match association lookup on object fields. -/
def jsLookup (k : String) : List (String × Json) → Option Json
  | [] => none
  | (k', v) :: rest => if k' = k then some v else jsLookup k rest

/-- JS named-property access `v.k` for the non-numeric names this code reads
(`choices`, `message`, `content`, `stationName`): defined on objects, and
`undefined` on primitives and arrays (which own no such property).  Access on
`null` throws and is handled separately at the one non-optional access site. -/
def jsGetField (v : Json) (k : String) : Option Json :=
  match v with
  | .obj fields => jsLookup k fields
  | _ => none

/-- JS index access `v[i]`: array element, string character, object property
named by the index, `undefined` otherwise. -/
def jsIndex (v : Json) (i : Nat) : Option Json :=
  match v with
  | .arr l => l[i]?
  | .str s => (s.toList[i]?).map (fun c => Json.str (String.mk [c]))
  | .obj fields => jsLookup (toString i) fields
  | _ => none

/-- Optional-chained property access `v?.k`: `undefined` when the receiver is
`undefined` or `null`, else plain access. -/
def optChainField (v : Option Json) (k : String) : Option Json :=
  match v with
  | none => none
  | some .null => none
  | some w => jsGetField w k

/-- Optional-chained index access `v?.[i]`. -/
def optChainIndex (v : Option Json) (i : Nat) : Option Json :=
  match v with
  | none => none
  | some .null => none
  | some w => jsIndex w i

/-- JS truthiness of a defined value. -/
def truthy : Json → Bool
  | .null => false
  | .bool b => b
  | .num q => q ≠ 0
  | .str s => s ≠ ""
  | .arr _ => true
  | .obj _ => true

/-- JS truthiness with `undefined` (falsy). -/
def truthyOpt : Option Json → Bool
  | none => false
  | some v => truthy v

/-- Part_000 line 61: `Array.isArray(apiData) && apiData[0]?.stationName` —
the payload is accepted as a direct suggestion array exactly when it is an
array whose first element exists and has a truthy `stationName`. -/
def isDirectSuggestionArray : Json → Bool
  | .arr l => truthyOpt (optChainField l[0]? "stationName")
  | _ => false

/-- `content.replace(/\x60\x60\x60json|\x60\x60\x60/g, "")`, part_000 line 65:
scan left to right, at each position removing a `\x60\x60\x60json` match
first, else a `\x60\x60\x60` match, else keeping the character. -/
def stripFences : List Char → List Char
  | [] => []
  | '\x60' :: '\x60' :: '\x60' :: 'j' :: 's' :: 'o' :: 'n' :: rest => stripFences rest
  | '\x60' :: '\x60' :: '\x60' :: rest => stripFences rest
  | c :: rest => c :: stripFences rest

/-- Whitespace as removed by the JS `.trim()` builtin (the characters that
can occur in practice). -/
def isJsSpace (c : Char) : Bool :=
  (c == ' ') || (c == '\t') || (c == '\n') || (c == '\r') || (c == '\x0b') || (c == '\x0c')

/-- The JS `.trim()` builtin: drop whitespace from both ends. -/
def jsTrim (l : List Char) : List Char :=
  ((l.dropWhile isJsSpace).reverse.dropWhile isJsSpace).reverse

/-- `content.replace(...).trim()`, part_000 line 65. -/
def jsClean (s : String) : String :=
  String.mk (jsTrim (stripFences s.toList))

/-- Part_000 line 64: the value of `apiData.choices?.[0]?.message?.content`.
The first access `.choices` is not optional-chained, so it throws (`.error`)
when `apiData` is `null`; afterwards every step is `?.`-guarded and total. -/
def contentOf (apiData : Json) : Except Unit (Option Json) :=
  match apiData with
  | .null => .error ()
  | _ =>
    .ok (optChainField
          (optChainField (optChainIndex (jsGetField apiData "choices") 0) "message")
          "content")

/-- Part_000 lines 64-65: `content = chain || ""` then
`content.replace(...).trim()`.  A falsy chain result is replaced by `""`;
a truthy non-string `content` has no `.replace` method, so the call throws
(caught by the outer `catch`). -/
def cleanContentOf (apiData : Json) : Except Unit String :=
  match contentOf apiData with
  | .error _ => .error ()
  | .ok c =>
    match c with
    | some (.str s) => .ok (jsClean s)
    | some v => if truthy v then .error () else .ok (jsClean "")
    | none => .ok (jsClean "")

/-- Part_000 line 76: `finalSuggestions.length === 0`.  Reading `.length` on
`null` throws (`.error`) — and line 76 sits outside both `catch` blocks.  On a
number or boolean `.length` is `undefined` and `undefined === 0` is false; on
an object it is the `length` field if any, strictly compared with the number 0. -/
def lengthIsZero : Json → Except Unit Bool
  | .null => .error ()
  | .arr l => .ok (l.length = 0)
  | .str s => .ok (s.length = 0)
  | .obj fields => .ok (match jsLookup "length" fields with
      | some (.num q) => q = 0
      | _ => false)
  | .bool _ => .ok false
  | .num _ => .ok false

/-- Outcome of the `fetch` + `response.json()` boundary, part_000 lines 51-59:
the request may reject, the response may be non-ok (line 57 then throws), the
body may fail to parse as JSON, or a JSON payload is obtained. -/
inductive RemoteOutcome where
  | networkError : RemoteOutcome
  | httpError : RemoteOutcome
  | badBody : RemoteOutcome
  | ok : Json → RemoteOutcome

/-- A suggestion record as the JS runtime value the fallback's object
literals denote. -/
def encodeSuggestion (s : Suggestion) : Json :=
  .obj [("stationName", .str s.stationName), ("area", .str s.area),
        ("parameter", .str s.parameter), ("value", .num s.value),
        ("threshold", .num s.threshold), ("suggestion", .str s.suggestion)]

/-- Part_000 lines 50-74: the value of `finalSuggestions` after the
`try`/`catch`, as a function of the remote outcome.  `parse` stands for the
`JSON.parse` builtin applied to the cleaned content string (`none` = it
throws, absorbed by the inner `catch`).  All three failure outcomes are
absorbed by the outer `catch` into `[]`. -/
def computeFinalSuggestions (parse : String → Option Json)
    (outcome : RemoteOutcome) : Json :=
  match outcome with
  | .networkError => .arr []
  | .httpError => .arr []
  | .badBody => .arr []
  | .ok apiData =>
    if isDirectSuggestionArray apiData then apiData
    else
      match cleanContentOf apiData with
      | .error _ => .arr []
      | .ok clean =>
        match parse clean with
        | some v => v
        | none => .arr []

/-- The panel state touched by `analyzeStationsWithAI`: the `loading` flag and
the `suggestions` value handed to `setSuggestions` (a raw JS value — the
source casts, it never validates). -/
structure AnalysisState where
  loading : Bool
  suggestions : Json
  deriving Repr

/-- Part_000 lines 44-115, `analyzeStationsWithAI`: set loading, clear
suggestions, compute `finalSuggestions` from the remote outcome, run the local
fallback when `finalSuggestions.length === 0`, then publish the result and
clear loading.  `.error st` models an uncaught exception with the state left
as `st` (the line-76 length read is outside both `catch` blocks, and an
exception there leaves `loading` true and `suggestions` empty). -/
def analyze (parse : String → Option Json) (stations : List Station)
    (outcome : RemoteOutcome) : Except AnalysisState AnalysisState :=
  let fs := computeFinalSuggestions parse outcome
  match lengthIsZero fs with
  | .error _ => .error ⟨true, .arr []⟩
  | .ok true => .ok ⟨false, .arr ((localFallback stations).map encodeSuggestion)⟩
  | .ok false => .ok ⟨false, fs⟩

/-! ### Grouped rendering of suggestions (part_000 lines 199-248) -/

/-- The own property names of `Object.prototype` (ECMA-262, including the
Annex B accessors): the names a plain-object property read finds on the
prototype chain.  Every one of them is truthy on read — the methods are
functions, and the `__proto__` accessor returns the (non-null) prototype. -/
def protoProps : List String :=
  ["constructor", "hasOwnProperty", "isPrototypeOf", "propertyIsEnumerable",
   "toLocaleString", "toString", "valueOf", "__defineGetter__",
   "__defineSetter__", "__lookupGetter__", "__lookupSetter__", "__proto__"]

/-- The own-key step of the `reduce` at part_000 lines 201-208, for a station
name that is not shadowed by the prototype chain: the first occurrence
creates the key (appended in insertion order) with a singleton group, later
occurrences push onto the existing group. -/
def insertOwn (acc : List (String × List Suggestion)) (c : Suggestion) :
    List (String × List Suggestion) :=
  if c.stationName ∈ acc.map Prod.fst then
    acc.map (fun p => if p.1 = c.stationName then (p.1, p.2 ++ [c]) else p)
  else acc ++ [(c.stationName, [c])]

/-- One step of the `reduce` at part_000 lines 201-208 with JS property
semantics.  `!acc[curr.stationName]` consults the prototype chain: when the
name is an `Object.prototype` property the read is truthy (a method, or the
`__proto__` accessor returning the prototype object), the guard skips the
initialisation, and `acc[curr.stationName].push(curr)` calls `.push` on a
value that has none — an uncaught TypeError (`.error`).  Such a name never
becomes an own key, so this happens at its every occurrence; any other name
follows the own-key path `insertOwn`. -/
def insertSugg (acc : List (String × List Suggestion)) (c : Suggestion) :
    Except Unit (List (String × List Suggestion)) :=
  if c.stationName ∈ protoProps then .error ()
  else .ok (insertOwn acc c)

/-- The `reduce` into a record, part_000 lines 200-209: fold `insertSugg`
over the suggestions, aborting at a thrown TypeError. -/
def groupByStation (suggs : List Suggestion) :
    Except Unit (List (String × List Suggestion)) :=
  suggs.foldlM insertSugg []

/-- The grouping record when no station name is prototype-shadowed: own keys
in insertion order, each with its group. -/
def ownGroups (suggs : List Suggestion) : List (String × List Suggestion) :=
  suggs.foldl insertOwn []

/-- The names in order of first appearance. -/
def firstAppearanceOrder (names : List String) : List String :=
  names.foldl (fun acc n => if n ∈ acc then acc else acc ++ [n]) []

/-- Decimal digit test on a character, by code point. -/
def isDigitChar (c : Char) : Bool :=
  decide (48 ≤ c.toNat) && decide (c.toNat ≤ 57)

/-- Value of a decimal digit string. -/
def digitsVal (l : List Char) : Nat :=
  l.foldl (fun a c => a * 10 + (c.toNat - 48)) 0

/-- Whether a string is a JS array-index key (ECMA-262): the canonical
decimal form — digits only, no leading zero except `"0"` itself — of a
natural number below 2^32 - 1. -/
def isArrayIndexKey (s : String) : Bool :=
  match s.toList with
  | [] => false
  | c :: rest =>
    (c :: rest).all isDigitChar && (c != '0' || rest.isEmpty) &&
      decide (digitsVal (c :: rest) < 4294967295)

/-- Numeric value of an array-index key, for ordering. -/
def keyNum (s : String) : Nat :=
  digitsVal s.toList

/-- Insert an entry into a list of array-index entries sorted by numeric key. -/
def insertByIdx (p : String × List Suggestion) :
    List (String × List Suggestion) → List (String × List Suggestion)
  | [] => [p]
  | q :: rest =>
    if keyNum p.1 ≤ keyNum q.1 then p :: q :: rest else q :: insertByIdx p rest

/-- Sort array-index entries by ascending numeric key. -/
def sortByIdx : List (String × List Suggestion) → List (String × List Suggestion)
  | [] => []
  | p :: rest => insertByIdx p (sortByIdx rest)

/-- `Object.entries` enumeration order (ECMA-262 OrdinaryOwnPropertyKeys):
own array-index keys in ascending numeric order first, then the remaining
string keys in insertion order. -/
def objectEntries (acc : List (String × List Suggestion)) :
    List (String × List Suggestion) :=
  sortByIdx (acc.filter (fun p => isArrayIndexKey p.1)) ++
    acc.filter (fun p => !isArrayIndexKey p.1)

/-- One rendered station group, part_000 lines 209-248: the header shows the
station name and `stationSuggestions[0]?.area || ""`, then the group's
suggestions in order. -/
structure GroupView where
  stationName : String
  area : String
  items : List Suggestion
  deriving DecidableEq, Repr

/-- The view of one `Object.entries` entry, part_000 lines 209-230. -/
def toGroupView (p : String × List Suggestion) : GroupView :=
  { stationName := p.1,
    area := (p.2.head?.map Suggestion.area).getD "",
    items := p.2 }

/-- The grouped rendering of the suggestion list, part_000 lines 199-248:
`Object.entries` of the reduce's record, in enumeration order, or the
TypeError the reduce throws. -/
def renderGroups (suggs : List Suggestion) : Except Unit (List GroupView) :=
  (groupByStation suggs).map (fun acc => (objectEntries acc).map toGroupView)

/-! ### Station map (src/components/Map.tsx) -/

/-- `Station.info` as declared in Map.tsx lines 20-24 (no `area` field here).
Map.tsx's inline `latestReading` type (lines 25-30) has exactly the fields of
`SensorReading`, which is reused. -/
structure MapStationInfo where
  latitude : ℚ
  longitude : ℚ
  name : String
  deriving DecidableEq, Repr

/-- `Station` as declared in Map.tsx lines 18-31. -/
structure MapStation where
  id : String
  info : MapStationInfo
  latestReading : Option SensorReading
  deriving DecidableEq, Repr

/-- Content of a marker popup, Map.tsx lines 54-75: either the reading's
fields with the coordinates and the formatted last-update time, or a plain
message. -/
inductive PopupBody where
  | reading (temperature emissions noise : ℚ) (latitude longitude : ℚ)
      (lastUpdated : String) : PopupBody
  | message (text : String) : PopupBody
  deriving DecidableEq, Repr

/-- One rendered `Marker`, Map.tsx lines 50-76: keyed by the station id,
positioned at `[info.latitude, info.longitude]`, popup titled with the station
name. -/
structure MarkerView where
  key : String
  position : ℚ × ℚ
  title : String
  body : PopupBody
  deriving DecidableEq, Repr

/-- The `Map` component's marker list, Map.tsx lines 49-77: one marker per
station.  `fmt` stands for the `new Date(d).toLocaleString()` formatting
builtin applied to the reading's `datetime`. -/
def renderMap (fmt : String → String) (stations : List MapStation) :
    List MarkerView :=
  stations.map (fun st =>
    { key := st.id,
      position := (st.info.latitude, st.info.longitude),
      title := st.info.name,
      body :=
        match st.latestReading with
        | some r => .reading r.temperature r.emissions r.noise
            st.info.latitude st.info.longitude (fmt r.datetime)
        | none => .message "No reading available" })

/-! ### Helper lemmas for the grouping invariant -/

lemma mem_foldl_firstApp (ns : List String) (acc : List String) (n : String) :
    n ∈ ns.foldl (fun a m => if m ∈ a then a else a ++ [m]) acc ↔ n ∈ acc ∨ n ∈ ns := by
  induction ns generalizing acc with
  | nil => simp
  | cons m t ih =>
    simp only [List.foldl_cons]
    by_cases hm : m ∈ acc
    · rw [if_pos hm, ih]
      constructor
      · rintro (h | h)
        · exact Or.inl h
        · exact Or.inr (List.mem_cons_of_mem m h)
      · rintro (h | h)
        · exact Or.inl h
        · rcases List.mem_cons.1 h with rfl | h
          · exact Or.inl hm
          · exact Or.inr h
    · rw [if_neg hm, ih]
      simp only [List.mem_append, List.mem_singleton, List.mem_cons]
      tauto

lemma mem_firstAppearanceOrder (ns : List String) (n : String) :
    n ∈ firstAppearanceOrder ns ↔ n ∈ ns := by
  rw [firstAppearanceOrder, mem_foldl_firstApp]
  simp

lemma firstAppearanceOrder_concat (ns : List String) (n : String) :
    firstAppearanceOrder (ns ++ [n]) =
      if n ∈ firstAppearanceOrder ns then firstAppearanceOrder ns
      else firstAppearanceOrder ns ++ [n] := by
  rw [firstAppearanceOrder, firstAppearanceOrder, List.foldl_append]
  rfl

/-- The grouping accumulator is, at every step, the canonical grouping of the
prefix processed so far: its keys are the names in first-appearance order, and
each key's group is the sublist of suggestions carrying that name. -/

def GroupInv (pre : List Suggestion) (acc : List (String × List Suggestion)) : Prop :=
  acc.map Prod.fst = firstAppearanceOrder (pre.map Suggestion.stationName) ∧
  ∀ p ∈ acc, p.2 = pre.filter (fun s => s.stationName == p.1)

lemma insertOwn_inv {pre : List Suggestion} {acc : List (String × List Suggestion)}
    (x : Suggestion) (h : GroupInv pre acc) : GroupInv (pre ++ [x]) (insertOwn acc x) := by
  obtain ⟨hkeys, hgroups⟩ := h
  unfold insertOwn
  by_cases hx : x.stationName ∈ acc.map Prod.fst
  · rw [if_pos hx]
    constructor
    · have hfst : (acc.map (fun p => if p.1 = x.stationName then (p.1, p.2 ++ [x]) else p)).map
          Prod.fst = acc.map Prod.fst := by
        rw [List.map_map]
        apply List.map_congr_left
        intro p _
        by_cases hp : p.1 = x.stationName
        · simp [hp]
        · simp [hp]
      rw [hfst, hkeys, List.map_append, List.map_cons, List.map_nil,
        firstAppearanceOrder_concat, if_pos]
      rw [← hkeys]
      exact hx
    · intro p hp
      obtain ⟨q, hq, rfl⟩ := List.mem_map.1 hp
      by_cases hq1 : q.1 = x.stationName
      · rw [if_pos hq1]
        simp only
        rw [List.filter_append, hgroups q hq]
        have hone : [x].filter (fun s => s.stationName == q.1) = [x] := by
          simp [hq1]
        rw [hone]
      · rw [if_neg hq1]
        rw [List.filter_append, hgroups q hq]
        have hone : [x].filter (fun s => s.stationName == q.1) = [] := by
          simp only [List.filter, List.filter_nil]
          have : (x.stationName == q.1) = false := by
            simp only [beq_eq_false_iff_ne, ne_eq]
            intro he
            exact hq1 he.symm
          rw [this]
        rw [hone, List.append_nil]
  · rw [if_neg hx]
    have hxn : x.stationName ∉ pre.map Suggestion.stationName := by
      rw [← mem_firstAppearanceOrder, ← hkeys]
      exact hx
    constructor
    · have hl : (acc ++ [(x.stationName, [x])]).map Prod.fst =
          acc.map Prod.fst ++ [x.stationName] := by simp
      rw [hl, hkeys, List.map_append, List.map_cons, List.map_nil,
        firstAppearanceOrder_concat,
        if_neg (by rw [mem_firstAppearanceOrder]; exact hxn)]
    · intro p hp
      rcases List.mem_append.1 hp with hp | hp
      · have hne : (fun s => s.stationName == p.1) x = false := by
          simp only [beq_eq_false_iff_ne, ne_eq]
          intro he
          exact hx (he ▸ List.mem_map_of_mem Prod.fst hp)
        rw [List.filter_append, hgroups p hp]
        have hone : [x].filter (fun s => s.stationName == p.1) = [] := by
          simp only [List.filter, List.filter_nil, hne]
        rw [hone, List.append_nil]
      · rw [List.mem_singleton] at hp
        subst hp
        simp only
        rw [List.filter_append]
        have hpre : pre.filter (fun s => s.stationName == x.stationName) = [] := by
          rw [List.filter_eq_nil_iff]
          intro s hs
          simp only [beq_iff_eq]
          intro he
          exact hxn (he ▸ List.mem_map_of_mem Suggestion.stationName hs)
        rw [hpre, List.nil_append]
        simp

lemma groupBy_inv_aux (l : List Suggestion) : ∀ (pre : List Suggestion)
    (acc : List (String × List Suggestion)), GroupInv pre acc →
    GroupInv (pre ++ l) (l.foldl insertOwn acc) := by
  induction l with
  | nil => intro pre acc h; simpa using h
  | cons x t ih =>
    intro pre acc h
    simp only [List.foldl_cons]
    have := ih (pre ++ [x]) (insertOwn acc x) (insertOwn_inv x h)
    simpa [List.append_assoc] using this

lemma ownGroups_inv (l : List Suggestion) : GroupInv l (ownGroups l) := by
  have h0 : GroupInv [] [] := ⟨rfl, by simp⟩
  have := groupBy_inv_aux l [] [] h0
  simpa [ownGroups] using this

lemma foldlM_insertSugg_ok (l : List Suggestion) :
    ∀ acc, (∀ s ∈ l, s.stationName ∉ protoProps) →
      l.foldlM insertSugg acc = .ok (l.foldl insertOwn acc) := by
  induction l with
  | nil => intro acc _; rfl
  | cons x t ih =>
    intro acc h
    have hx : x.stationName ∉ protoProps := h x (List.mem_cons_self x t)
    rw [List.foldlM_cons,
      show insertSugg acc x = Except.ok (insertOwn acc x) from by
        rw [insertSugg, if_neg hx]]
    exact ih (insertOwn acc x) (fun s hs => h s (List.mem_cons_of_mem x hs))

lemma mem_insertByIdx (p q : String × List Suggestion) :
    ∀ L : List (String × List Suggestion), q ∈ insertByIdx p L ↔ q = p ∨ q ∈ L := by
  intro L
  induction L with
  | nil => simp [insertByIdx]
  | cons r rest ih =>
    rw [insertByIdx]
    by_cases hle : keyNum p.1 ≤ keyNum r.1
    · rw [if_pos hle]
      simp [List.mem_cons]
    · rw [if_neg hle]
      simp only [List.mem_cons, ih]
      tauto

lemma mem_sortByIdx (q : String × List Suggestion) :
    ∀ L : List (String × List Suggestion), q ∈ sortByIdx L ↔ q ∈ L := by
  intro L
  induction L with
  | nil => simp [sortByIdx]
  | cons r rest ih =>
    rw [sortByIdx, mem_insertByIdx]
    simp [List.mem_cons, ih]

lemma mem_objectEntries {q : String × List Suggestion}
    {acc : List (String × List Suggestion)} (h : q ∈ objectEntries acc) : q ∈ acc := by
  rw [objectEntries] at h
  rcases List.mem_append.1 h with h | h
  · exact List.mem_of_mem_filter ((mem_sortByIdx q _).1 h)
  · exact List.mem_of_mem_filter h

lemma objectEntries_no_index (acc : List (String × List Suggestion))
    (h : ∀ p ∈ acc, isArrayIndexKey p.1 = false) : objectEntries acc = acc := by
  have h1 : acc.filter (fun p => isArrayIndexKey p.1) = [] := by
    rw [List.filter_eq_nil_iff]
    intro p hp
    simp [h p hp]
  have h2 : acc.filter (fun p => !isArrayIndexKey p.1) = acc := by
    rw [List.filter_eq_self]
    intro p hp
    simp [h p hp]
  rw [objectEntries, h1, h2, sortByIdx, List.nil_append]

/-! ### Claim theorems -/

/-- C1: for a station whose latest reading is present, the local fallback
emits at most one suggestion, and a station exceeding all three thresholds
(temperature 30, emissions 150, noise 85) yields exactly the one Temperature
suggestion, by priority order. -/
theorem c1_fallback_priority (s : Station) (r : SensorReading)
    (h : s.latestReading = some r) :
    (localFallback [s]).length ≤ 1 ∧
    (30 < r.temperature → 150 < r.emissions → 85 < r.noise →
      localFallback [s] =
        [{ stationName := s.info.name, area := s.info.area,
           parameter := "Temperature", value := r.temperature, threshold := 30,
           suggestion := "Deploy cooling systems or improve ventilation." }]) := by
  constructor
  · rw [localFallback]
    cases hf : localFallbackOne s <;> simp [List.filterMap, hf]
  · intro ht he hn
    simp [localFallback, List.filterMap, localFallbackOne, h, ht]

theorem c1_witness :
    localFallback [⟨"1", ⟨"A", 0, 0, "Z"⟩, some ⟨"", 40, 200, 90⟩⟩] =
      [⟨"A", "Z", "Temperature", 40, 30, "Deploy cooling systems or improve ventilation."⟩] :=
  (c1_fallback_priority ⟨"1", ⟨"A", 0, 0, "Z"⟩, some ⟨"", 40, 200, 90⟩⟩ ⟨"", 40, 200, 90⟩ rfl).2
    (by norm_num) (by norm_num) (by norm_num)

/-- C2: a successful remote response of an empty array is treated as no
usable result — the chat-envelope extraction yields the empty string, whose
parse fails — so the local fallback runs and the displayed suggestions are
exactly the fallback evaluation of the station list. -/
theorem c2_empty_array_falls_back (parse : String → Option Json)
    (stations : List Station) (h : parse "" = none) :
    analyze parse stations (.ok (.arr []))
      = .ok ⟨false, .arr ((localFallback stations).map encodeSuggestion)⟩ := by
  have h1 : computeFinalSuggestions parse (.ok (.arr [])) = .arr [] := by
    have h0 : cleanContentOf (.arr []) = .ok "" := rfl
    simp [computeFinalSuggestions, isDirectSuggestionArray, truthyOpt, optChainField, h0, h]
  simp [analyze, h1, lengthIsZero]

theorem c2_witness :
    analyze (fun _ => none) [⟨"1", ⟨"A", 0, 0, ""⟩, some ⟨"", 35, 10, 20⟩⟩] (.ok (.arr []))
      = .ok ⟨false, .arr ((localFallback [⟨"1", ⟨"A", 0, 0, ""⟩, some ⟨"", 35, 10, 20⟩⟩]).map
          encodeSuggestion)⟩ :=
  c2_empty_array_falls_back (fun _ => none) _ rfl

/-- C3 (failing input): a remote chat envelope whose content is the string
"null" parses to JSON null; the length check at part_000 line 76 then reads
`.length` of null outside both catch blocks, so the operation throws an
uncaught TypeError and ends with loading still true — contradicting the claim
that every analysis-boundary failure is absorbed into the fallback with
loading false. -/
theorem c3_null_content_uncaught (parse : String → Option Json) (stations : List Station)
    (h : parse "null" = some Json.null) :
    analyze parse stations
      (.ok (.obj [("choices", .arr [.obj [("message", .obj [("content", .str "null")])]])]))
      = .error ⟨true, .arr []⟩ := by
  have h1 : computeFinalSuggestions parse
      (.ok (.obj [("choices", .arr [.obj [("message", .obj [("content", .str "null")])]])]))
      = match parse "null" with | some v => v | none => .arr [] := rfl
  have h2 : computeFinalSuggestions parse
      (.ok (.obj [("choices", .arr [.obj [("message", .obj [("content", .str "null")])]])]))
      = Json.null := by rw [h1, h]
  simp [analyze, h2, lengthIsZero]

theorem c3_witness :
    analyze (fun s => if s = "null" then some Json.null else none) []
      (.ok (.obj [("choices", .arr [.obj [("message", .obj [("content", .str "null")])]])]))
      = .error ⟨true, .arr []⟩ :=
  c3_null_content_uncaught (fun s => if s = "null" then some Json.null else none) [] rfl

/-- C4: every suggestion the local fallback produces comes from a station in
the list whose reading is present, carries that station's name and area, and
pairs its parameter with the matching reading field and fixed threshold
(Temperature/30, PM 2.5 Emissions/150, Noise/85). -/
theorem c4_suggestion_invariant (stations : List Station) (sug : Suggestion)
    (h : sug ∈ localFallback stations) :
    ∃ s ∈ stations, ∃ r, s.latestReading = some r ∧
      sug.stationName = s.info.name ∧ sug.area = s.info.area ∧
      ((sug.parameter = "Temperature" ∧ sug.value = r.temperature ∧ sug.threshold = 30) ∨
       (sug.parameter = "PM 2.5 Emissions" ∧ sug.value = r.emissions ∧ sug.threshold = 150) ∨
       (sug.parameter = "Noise" ∧ sug.value = r.noise ∧ sug.threshold = 85)) := by
  rw [localFallback, List.mem_filterMap] at h
  obtain ⟨s, hs, hone⟩ := h
  refine ⟨s, hs, ?_⟩
  cases hr : s.latestReading with
  | none =>
    simp only [localFallbackOne, hr] at hone
    exact Option.noConfusion hone
  | some r =>
    simp only [localFallbackOne, hr] at hone
    refine ⟨r, rfl, ?_⟩
    split_ifs at hone with h1 h2 h3
    · injection hone with h'
      subst h'
      exact ⟨rfl, rfl, Or.inl ⟨rfl, rfl, rfl⟩⟩
    · injection hone with h'
      subst h'
      exact ⟨rfl, rfl, Or.inr (Or.inl ⟨rfl, rfl, rfl⟩)⟩
    · injection hone with h'
      subst h'
      exact ⟨rfl, rfl, Or.inr (Or.inr ⟨rfl, rfl, rfl⟩)⟩

theorem c4_witness :
    ∃ s ∈ [(⟨"1", ⟨"A", 0, 0, "Z"⟩, some ⟨"", 10, 10, 90⟩⟩ : Station)], ∃ r,
      s.latestReading = some r ∧
      (⟨"A", "Z", "Noise", 90, 85,
        "Install noise barriers or schedule loud activities during off-peak hours."⟩ :
          Suggestion).stationName = s.info.name ∧
      (⟨"A", "Z", "Noise", 90, 85,
        "Install noise barriers or schedule loud activities during off-peak hours."⟩ :
          Suggestion).area = s.info.area ∧
      (((⟨"A", "Z", "Noise", 90, 85,
        "Install noise barriers or schedule loud activities during off-peak hours."⟩ :
          Suggestion).parameter = "Temperature" ∧
        (⟨"A", "Z", "Noise", 90, 85,
        "Install noise barriers or schedule loud activities during off-peak hours."⟩ :
          Suggestion).value = r.temperature ∧
        (⟨"A", "Z", "Noise", 90, 85,
        "Install noise barriers or schedule loud activities during off-peak hours."⟩ :
          Suggestion).threshold = 30) ∨
       ((⟨"A", "Z", "Noise", 90, 85,
        "Install noise barriers or schedule loud activities during off-peak hours."⟩ :
          Suggestion).parameter = "PM 2.5 Emissions" ∧
        (⟨"A", "Z", "Noise", 90, 85,
        "Install noise barriers or schedule loud activities during off-peak hours."⟩ :
          Suggestion).value = r.emissions ∧
        (⟨"A", "Z", "Noise", 90, 85,
        "Install noise barriers or schedule loud activities during off-peak hours."⟩ :
          Suggestion).threshold = 150) ∨
       ((⟨"A", "Z", "Noise", 90, 85,
        "Install noise barriers or schedule loud activities during off-peak hours."⟩ :
          Suggestion).parameter = "Noise" ∧
        (⟨"A", "Z", "Noise", 90, 85,
        "Install noise barriers or schedule loud activities during off-peak hours."⟩ :
          Suggestion).value = r.noise ∧
        (⟨"A", "Z", "Noise", 90, 85,
        "Install noise barriers or schedule loud activities during off-peak hours."⟩ :
          Suggestion).threshold = 85)) :=
  c4_suggestion_invariant _ _ (by decide)

/-- C5: a station with a null latest reading contributes no fallback
suggestion, and neither does a station whose reading exceeds no threshold. -/
theorem c5_no_reading_no_suggestion (s : Station) :
    (s.latestReading = none → localFallback [s] = []) ∧
    (∀ r, s.latestReading = some r → r.temperature ≤ 30 → r.emissions ≤ 150 →
      r.noise ≤ 85 → localFallback [s] = []) := by
  constructor
  · intro h; simp [localFallback, List.filterMap, localFallbackOne, h]
  · intro r h h1 h2 h3
    simp [localFallback, List.filterMap, localFallbackOne, h, not_lt.2 h1, not_lt.2 h2, not_lt.2 h3]

theorem c5_witness :
    localFallback [⟨"1", ⟨"A", 0, 0, ""⟩, none⟩] = [] :=
  (c5_no_reading_no_suggestion ⟨"1", ⟨"A", 0, 0, ""⟩, none⟩).1 rfl

/-- C6: the single-station scenario — name "A", reading temperature 35,
emissions 10, noise 20 — with a failing endpoint yields exactly the one
Temperature suggestion with value 35, threshold 30 and the cooling advice
text. -/
theorem c6_scenario_station_a (id area datetime : String) (lat lon : ℚ)
    (parse : String → Option Json) :
    analyze parse [⟨id, ⟨"A", lat, lon, area⟩, some ⟨datetime, 35, 10, 20⟩⟩] .networkError
      = .ok ⟨false, .arr [encodeSuggestion
          ⟨"A", area, "Temperature", 35, 30, "Deploy cooling systems or improve ventilation."⟩]⟩ := rfl

/-- C7: a station whose reading has temperature at most 30 and emissions
over 150 yields exactly one suggestion, with parameter "PM 2.5 Emissions",
value the reading's emissions and threshold 150. -/
theorem c7_emissions_branch (s : Station) (r : SensorReading)
    (h : s.latestReading = some r) (h1 : r.temperature ≤ 30) (h2 : 150 < r.emissions) :
    localFallback [s] = [⟨s.info.name, s.info.area, "PM 2.5 Emissions", r.emissions, 150,
      "Implement carbon capture technologies or reduce operational hours."⟩] := by
  simp [localFallback, List.filterMap, localFallbackOne, h, not_lt.2 h1, h2]

theorem c7_witness :
    localFallback [⟨"1", ⟨"B", 0, 0, "Y"⟩, some ⟨"", 20, 200, 50⟩⟩] =
      [⟨"B", "Y", "PM 2.5 Emissions", 200, 150,
        "Implement carbon capture technologies or reduce operational hours."⟩] :=
  c7_emissions_branch ⟨"1", ⟨"B", 0, 0, "Y"⟩, some ⟨"", 20, 200, 50⟩⟩ ⟨"", 20, 200, 50⟩ rfl
    (by norm_num) (by norm_num)

/-- C8 (counterexample): for the suggestion list with station names "1" then
"0" — both array-index keys — `Object.entries` enumerates the grouping
record's keys in ascending numeric order, so the rendered header order is
["0", "1"] while the order of first appearance is ["1", "0"]: the original
claim's header-order clause fails on this input. -/
theorem c8_counterexample :
    (renderGroups [⟨"1", "A", "Temperature", 40, 30, "t"⟩,
        ⟨"0", "B", "Noise", 90, 85, "n"⟩]).map
      (fun gs => gs.map GroupView.stationName) = .ok ["0", "1"] ∧
    firstAppearanceOrder
        ([(⟨"1", "A", "Temperature", 40, 30, "t"⟩ : Suggestion),
          ⟨"0", "B", "Noise", 90, 85, "n"⟩].map Suggestion.stationName)
      = ["1", "0"] := by
  constructor <;> rfl

/-- C8 (amended): for a suggestion list in which no station name is an
`Object.prototype` property name (otherwise the reduce throws a TypeError),
the grouping succeeds and keys suggestions by station name — one key per
name, in first-appearance order, each key's group exactly the sublist of
suggestions carrying it; the rendered groups are the `Object.entries`
enumeration (array-index names first, ascending), each with the area of its
first suggestion; and when additionally no station name is an array-index
string, the rendered header order is exactly first-appearance order. -/
theorem c8_grouping_amended (l : List Suggestion)
    (hp : ∀ s ∈ l, s.stationName ∉ protoProps) :
    groupByStation l = .ok (ownGroups l) ∧
    (ownGroups l).map Prod.fst = firstAppearanceOrder (l.map Suggestion.stationName) ∧
    (∀ p ∈ ownGroups l, p.2 = l.filter (fun s => s.stationName == p.1)) ∧
    renderGroups l = .ok ((objectEntries (ownGroups l)).map toGroupView) ∧
    (∀ g ∈ (objectEntries (ownGroups l)).map toGroupView, ∃ s0,
      g.items.head? = some s0 ∧ g.area = s0.area ∧ s0.stationName = g.stationName) ∧
    ((∀ s ∈ l, isArrayIndexKey s.stationName = false) →
      renderGroups l = .ok ((ownGroups l).map toGroupView)) := by
  obtain ⟨h1, h2⟩ := ownGroups_inv l
  have hok : groupByStation l = .ok (ownGroups l) := by
    rw [groupByStation, ownGroups]
    exact foldlM_insertSugg_ok l [] hp
  have hrender : renderGroups l = .ok ((objectEntries (ownGroups l)).map toGroupView) := by
    rw [renderGroups, hok]
    rfl
  refine ⟨hok, h1, h2, hrender, ?_, ?_⟩
  · intro g hg
    obtain ⟨p, hpe, rfl⟩ := List.mem_map.1 hg
    have hp2 : p ∈ ownGroups l := mem_objectEntries hpe
    have hap := h2 p hp2
    have hk : p.1 ∈ (ownGroups l).map Prod.fst := List.mem_map_of_mem Prod.fst hp2
    rw [h1, mem_firstAppearanceOrder] at hk
    obtain ⟨s, hs, hsn⟩ := List.mem_map.1 hk
    have hne : p.2 ≠ [] := by
      rw [hap]
      intro hnil
      rw [List.filter_eq_nil_iff] at hnil
      exact hnil s hs (by simp [hsn])
    obtain ⟨s0, t, hst⟩ := List.exists_cons_of_ne_nil hne
    have hs0 : s0 ∈ l.filter (fun s => s.stationName == p.1) := by
      rw [← hap, hst]
      exact List.mem_cons_self s0 t
    have hpred : (s0.stationName == p.1) = true := by
      have := (List.mem_filter.1 hs0).2
      simpa using this
    refine ⟨s0, ?_, ?_, ?_⟩
    · simp [toGroupView, hst]
    · simp [toGroupView, hst]
    · exact beq_iff_eq.1 hpred
  · intro hidx
    have hnone : ∀ p ∈ ownGroups l, isArrayIndexKey p.1 = false := by
      intro p hp2
      have hk : p.1 ∈ (ownGroups l).map Prod.fst := List.mem_map_of_mem Prod.fst hp2
      rw [h1, mem_firstAppearanceOrder] at hk
      obtain ⟨s, hs, hsn⟩ := List.mem_map.1 hk
      rw [← hsn]
      exact hidx s hs
    rw [hrender, objectEntries_no_index (ownGroups l) hnone]

theorem c8_witness :
    renderGroups [⟨"A", "Z", "Temperature", 40, 30, "t"⟩,
        ⟨"B", "Y", "Noise", 90, 85, "n"⟩, ⟨"A", "z2", "Noise", 90, 85, "n"⟩]
      = .ok ((ownGroups [⟨"A", "Z", "Temperature", 40, 30, "t"⟩,
          ⟨"B", "Y", "Noise", 90, 85, "n"⟩,
          ⟨"A", "z2", "Noise", 90, 85, "n"⟩]).map toGroupView) :=
  (c8_grouping_amended [⟨"A", "Z", "Temperature", 40, 30, "t"⟩,
      ⟨"B", "Y", "Noise", 90, 85, "n"⟩, ⟨"A", "z2", "Noise", 90, 85, "n"⟩]
    (by decide)).2.2.2.2.2 (by decide)

/-- C9: the map renders exactly one marker per station at that station's
coordinates; the popup shows the reading's temperature, emissions and noise,
the coordinates and the formatted last-update time when the reading is
present, and the text "No reading available" when it is null. -/
theorem c9_map_markers (fmt : String → String) (stations : List MapStation) :
    (renderMap fmt stations).length = stations.length ∧
    ∀ (i : Nat) (st : MapStation), stations[i]? = some st →
      ∃ m, (renderMap fmt stations)[i]? = some m ∧
        m.position = (st.info.latitude, st.info.longitude) ∧
        m.title = st.info.name ∧ m.key = st.id ∧
        (∀ r, st.latestReading = some r →
          m.body = .reading r.temperature r.emissions r.noise
            st.info.latitude st.info.longitude (fmt r.datetime)) ∧
        (st.latestReading = none → m.body = .message "No reading available") := by
  constructor
  · simp [renderMap]
  · intro i st hst
    refine ⟨{ key := st.id, position := (st.info.latitude, st.info.longitude),
              title := st.info.name,
              body := match st.latestReading with
                | some r => .reading r.temperature r.emissions r.noise
                    st.info.latitude st.info.longitude (fmt r.datetime)
                | none => .message "No reading available" }, ?_, rfl, rfl, rfl, ?_, ?_⟩
    · rw [renderMap, List.getElem?_map, hst, Option.map_some']
    · intro r hr
      simp only [hr]
    · intro hr
      simp only [hr]

theorem c9_witness :
    ∃ m, (renderMap (fun d => d) [⟨"1", ⟨1, 2, "A"⟩, none⟩])[0]? = some m ∧
      m.position = ((1 : ℚ), (2 : ℚ)) ∧ m.title = "A" ∧ m.key = "1" ∧
      (∀ r, (none : Option SensorReading) = some r →
        m.body = .reading r.temperature r.emissions r.noise 1 2 r.datetime) ∧
      ((none : Option SensorReading) = none → m.body = .message "No reading available") :=
  (c9_map_markers (fun d => d) [⟨"1", ⟨1, 2, "A"⟩, none⟩]).2 0 ⟨"1", ⟨1, 2, "A"⟩, none⟩ rfl

/-- C10: the payload is accepted as a direct suggestion array iff it is an
array whose first element has a truthy stationName; an accepted array is
displayed wholesale with no validation of later elements, while any other
array is routed through the chat-envelope extraction (which on an array
yields the empty string) and hence to the local fallback. -/
theorem c10_direct_array_acceptance (apiData : Json) (parse : String → Option Json)
    (stations : List Station) :
    (isDirectSuggestionArray apiData = true ↔
      ∃ x l, apiData = .arr (x :: l) ∧ truthyOpt (optChainField (some x) "stationName") = true) ∧
    (isDirectSuggestionArray apiData = true →
      analyze parse stations (.ok apiData) = .ok ⟨false, apiData⟩) ∧
    (∀ l, apiData = .arr l → isDirectSuggestionArray apiData = false → parse "" = none →
      analyze parse stations (.ok apiData)
        = .ok ⟨false, .arr ((localFallback stations).map encodeSuggestion)⟩) := by
  refine ⟨?_, ?_, ?_⟩
  · cases apiData with
    | arr l =>
      cases l with
      | nil => simp [isDirectSuggestionArray, truthyOpt, optChainField]
      | cons x t =>
        simp only [isDirectSuggestionArray, List.getElem?_cons_zero]
        constructor
        · intro hx; exact ⟨x, t, rfl, hx⟩
        · rintro ⟨x', l', he, hx⟩
          injection he with he'
          obtain ⟨rfl, rfl⟩ := List.cons.injEq .. ▸ he'
          exact hx
    | null => simp [isDirectSuggestionArray]
    | bool b => simp [isDirectSuggestionArray]
    | num q => simp [isDirectSuggestionArray]
    | str s => simp [isDirectSuggestionArray]
    | obj f => simp [isDirectSuggestionArray]
  · intro hd
    cases apiData with
    | arr l =>
      cases l with
      | nil => simp [isDirectSuggestionArray, truthyOpt, optChainField] at hd
      | cons x t =>
        have h1 : computeFinalSuggestions parse (.ok (.arr (x :: t))) = .arr (x :: t) := by
          simp [computeFinalSuggestions, hd]
        simp [analyze, h1, lengthIsZero]
    | null => simp [isDirectSuggestionArray] at hd
    | bool b => simp [isDirectSuggestionArray] at hd
    | num q => simp [isDirectSuggestionArray] at hd
    | str s => simp [isDirectSuggestionArray] at hd
    | obj f => simp [isDirectSuggestionArray] at hd
  · rintro l rfl hd hp
    have h0 : cleanContentOf (.arr l) = .ok "" := rfl
    have h1 : computeFinalSuggestions parse (.ok (.arr l)) = .arr [] := by
      simp [computeFinalSuggestions, hd, h0, hp]
    simp [analyze, h1, lengthIsZero]

theorem c10_witness :
    analyze (fun _ => none) [⟨"1", ⟨"A", 0, 0, ""⟩, some ⟨"", 35, 10, 20⟩⟩]
      (.ok (.arr [.num 5, .obj [("stationName", .str "B")]]))
      = .ok ⟨false, .arr ((localFallback [⟨"1", ⟨"A", 0, 0, ""⟩, some ⟨"", 35, 10, 20⟩⟩]).map
          encodeSuggestion)⟩ :=
  (c10_direct_array_acceptance (.arr [.num 5, .obj [("stationName", .str "B")]])
      (fun _ => none) _).2.2 _ rfl rfl rfl

end IoTDash
